import Mathlib

/-!
Shallow embedding of the credential-cache and request-signing code of the
ocigenai Traefik plugin (package `internal/auth`, authoritative version) and
of the request transformation (`internal/transform`), together with theorems
settling the specification claims about them.

Modelling conventions:
* Go `time.Time` is embedded as `Int` (seconds since an arbitrary epoch);
  `time.Time.Before` is `<` and `Add` is integer addition.
* Go byte strings whose only use is to be parsed (PEM/DER material) are
  embedded by their observable parse outcomes (`DERBytes`, `CertParse`).
* An HTTP header map is embedded by the two headers the signer touches
  (`Date`, `Authorization`); as in Go, `Header.Get` of an absent header is
  the empty string, so `""` stands for "absent".
* The cryptographic primitives (SHA-256, RSA PKCS#1 v1.5, base64) appear
  abstractly as a function `sigOf : String → String` from signing string to
  encoded signature; no claim depends on their internals.
-/

deriving instance DecidableEq for Except

namespace OCIGenAI

/-- Instants in time, embedding Go `time.Time` (auth.go uses `time.Now()`,
`Before`, and `Add`). -/
abbrev Instant := Int

/-- auth.go:34 `defaultCacheBuffer = 1 * time.Hour`, in seconds. -/
def defaultCacheBuffer : Int := 3600

/-- auth.go:35 `minCacheBuffer = 30 * time.Minute`, in seconds. -/
def minCacheBuffer : Int := 1800

/-! ## Request model and signing-string construction (auth.go 250-305) -/

/-- The parts of Go `url.URL` read by the signer: `Path`, `RawQuery`, `Host`. -/
structure URL where
  path : String
  rawQuery : String
  host : String
deriving DecidableEq

/-- The two headers the signer reads or writes.  `""` means the header is
absent, matching Go `http.Header.Get`. -/
structure Headers where
  date : String
  authorization : String
deriving DecidableEq

/-- The parts of Go `http.Request` read by the signer. -/
structure Request where
  method : String
  url : URL
  host : String
  headers : Headers
deriving DecidableEq

/-- Go `strings.ToLower`, restricted to the ASCII case mapping relevant to
HTTP method tokens (character-wise lower-casing). -/
def lowerString (s : String) : String :=
  ⟨s.data.map Char.toLower⟩

/-- auth.go 285-288: `requestTarget := strings.ToLower(req.Method) + " " +
req.URL.Path`, with `"?" + RawQuery` appended when the query is non-empty. -/
def requestTargetOf (r : Request) : String :=
  let requestTarget := lowerString r.method ++ " " ++ r.url.path
  if r.url.rawQuery ≠ "" then requestTarget ++ "?" ++ r.url.rawQuery
  else requestTarget

/-- auth.go 290-293: `host := req.Host; if host == "" { host = req.URL.Host }`. -/
def hostOf (r : Request) : String :=
  if r.host = "" then r.url.host else r.host

/-- auth.go 282-305 `buildSigningString`.  `nowStr` is the value
`time.Now().UTC().Format(http.TimeFormat)` would produce at the call; when the
`Date` header is absent it is generated and written back onto the request
(auth.go 296-299).  Returns the signing string together with the (possibly
mutated) request. -/
def buildSigningString (nowStr : String) (r : Request) : String × Request :=
  let requestTarget := requestTargetOf r
  let host := hostOf r
  let date0 := r.headers.date
  let date := if date0 = "" then nowStr else date0
  let r1 := if date0 = "" then
      { r with headers := { r.headers with date := nowStr } }
    else r
  ("(request-target): " ++ requestTarget ++ "\nhost: " ++ host ++ "\ndate: " ++ date, r1)

/-- The `date` local of `buildSigningString` (auth.go 295-299): the date value
that ends up covered by the signature. -/
def dateCoveredBySignature (nowStr : String) (r : Request) : String :=
  if r.headers.date = "" then nowStr else r.headers.date

/-- auth.go 269-272: the literal `Authorization` header template. -/
def authorizationHeaderValue (keyID encodedSignature : String) : String :=
  "Signature version=\"1\",keyId=\"" ++ keyID ++
    "\",algorithm=\"rsa-sha256\",headers=\"(request-target) host date\",signature=\"" ++
    encodedSignature ++ "\""

/-- auth.go 252-278 `signRequest`.  `sigOf` abstracts
`base64(rsa.SignPKCS1v15(sha256(·)))`; `nowStr` is the formatted current time
(both `time.Now()` calls, auth.go 297 and 275, are taken at the same frozen
instant).  Note auth.go 275 sets the `Date` header to the current time after
the signature has been computed. -/
def signRequest (sigOf : String → String) (keyID nowStr : String) (r : Request) :
    Request :=
  let built := buildSigningString nowStr r
  let encodedSignature := sigOf built.1
  let authorization := authorizationHeaderValue keyID encodedSignature
  let r2 := { built.2 with headers := { built.2.headers with authorization := authorization } }
  { r2 with headers := { r2.headers with date := nowStr } }

/-! ## Private-key parsing (auth.go 192-217) -/

/-- An RSA private key, identified for these claims by its modulus and
private exponent. -/
structure RSAKey where
  modulus : Nat
  privateExponent : Nat
deriving DecidableEq

/-- Outcome of Go `x509.ParsePKCS8PrivateKey`: an `any` that is either an
RSA key or some other key type. -/
inductive PKCS8Parsed where
  | rsaKey (k : RSAKey)
  | otherKey
deriving DecidableEq

/-- The DER bytes of a decoded PEM block, embedded by their observable parse
outcomes under the two parsers the code applies:
`asPKCS1` is the result of `x509.ParsePKCS1PrivateKey` and `asPKCS8` the
result of `x509.ParsePKCS8PrivateKey` (`none` = that parser errors). -/
structure DERBytes where
  asPKCS1 : Option RSAKey
  asPKCS8 : Option PKCS8Parsed
deriving DecidableEq

/-- Errors of `parsePrivateKey`, in the order they appear in auth.go. -/
inductive KeyError where
  | pemDecodeFailed
  | parseFailed
  | notRSA
deriving DecidableEq

/-- auth.go 194-217 `parsePrivateKey`.  The input is the result of
`pem.Decode` (`none` = no PEM block found); PKCS#1 is attempted first, then
PKCS#8, with a non-RSA PKCS#8 payload rejected. -/
def parsePrivateKey (input : Option DERBytes) : Except KeyError RSAKey :=
  match input with
  | none => .error .pemDecodeFailed
  | some block =>
    match block.asPKCS1 with
    | some key => .ok key
    | none =>
      match block.asPKCS8 with
      | none => .error .parseFailed
      | some (.rsaKey rsaKey) => .ok rsaKey
      | some .otherKey => .error .notRSA

/-! ## Certificate parsing and key-ID extraction (auth.go 219-248, 307-311) -/

/-- A subject attribute value, embedding Go `pkix.AttributeTypeAndValue.Value`
(an `any` that may or may not be a string). -/
inductive AttrValue where
  | strVal (s : String)
  | nonStringVal
deriving DecidableEq

/-- One entry of `cert.Subject.Names`: attribute type OID (as rendered by
`name.Type.String()`) and value. -/
structure SubjectAttr where
  oid : String
  value : AttrValue
deriving DecidableEq

/-- The OID compared against at auth.go:234. -/
def uniqueIdentifierOID : String := "2.5.4.45"

/-- The fields of a parsed `x509.Certificate` read by the code:
`Subject.Names`, `SerialNumber`, `NotAfter`. -/
structure Certificate where
  subjectNames : List SubjectAttr
  serialNumber : Int
  notAfter : Instant
deriving DecidableEq

/-- The loop of auth.go 233-240: scan `Subject.Names` for the first attribute
whose OID is `2.5.4.45`; on that attribute, take its value when it is a
string, and stop (`break`) whether or not the type assertion succeeded.
`""` is the zero value `keyID` starts from. -/
def findKeyID : List SubjectAttr → String
  | [] => ""
  | attr :: rest =>
    if attr.oid = uniqueIdentifierOID then
      match attr.value with
      | .strVal s => s
      | .nonStringVal => ""
    else findKeyID rest

/-- auth.go 220-248 `extractKeyIDAndExpiration`, restricted to a certificate
that decoded and parsed successfully: the key ID is the scanned subject value,
falling back to the decimal serial number when that value is empty
(auth.go 243-245), and the expiration is `cert.NotAfter` verbatim. -/
def extractKeyIDAndExpiration (cert : Certificate) : String × Instant :=
  let keyID := findKeyID cert.subjectNames
  let keyID := if keyID = "" then toString cert.serialNumber else keyID
  (keyID, cert.notAfter)

/-- What a certificate PEM string contains, embedded by its parse outcome:
no PEM block (auth.go 221-224), an unparseable certificate (auth.go 226-229),
or a parsed certificate. -/
inductive CertParse where
  | noPemBlock
  | malformed
  | parsed (c : Certificate)
deriving DecidableEq

/-- Errors of certificate handling, per auth.go 220-229. -/
inductive CertError where
  | pemDecodeFailed
  | parseFailed
deriving DecidableEq

/-- auth.go 220-248 including the failure paths. -/
def extractFromCertPem (p : CertParse) : Except CertError (String × Instant) :=
  match p with
  | .noPemBlock => .error .pemDecodeFailed
  | .malformed => .error .parseFailed
  | .parsed cert => .ok (extractKeyIDAndExpiration cert)

/-! ## Metadata endpoint fetch (auth.go 164-190) -/

/-- Outcome of `a.client.Do(req)` followed by reading the body: either the
connection fails, or a response arrives with a status code and a body whose
`io.ReadAll` either fails or yields bytes. -/
inductive HTTPOutcome where
  | connError
  | response (status : Nat) (bodyRead : Except Unit (List Nat))
deriving DecidableEq

/-- Errors of `fetchMetadataEndpoint`, in source order. -/
inductive FetchError where
  | connFail
  | badStatus (code : Nat)
  | readFail
deriving DecidableEq

/-- auth.go 165-190 `fetchMetadataEndpoint`: propagate a connection error,
reject any status other than 200 (`http.StatusOK`), then read the body. -/
def fetchMetadataEndpoint (outcome : HTTPOutcome) : Except FetchError (List Nat) :=
  match outcome with
  | .connError => .error .connFail
  | .response status bodyRead =>
    if status ≠ 200 then .error (.badStatus status)
    else
      match bodyRead with
      | .error _ => .error .readFail
      | .ok body => .ok body

/-! ## Credential cache and `getCredentials` (auth.go 38-135) -/

/-- `types.InstanceMetadata` (pkg/types/types.go): the three PEM documents
returned by `fetchInstanceMetadata` (auth.go 137-162).  `certPem` and
`keyPem` are embedded by their parse outcomes; `intermediatePem` is fetched
but never parsed, so it stays an uninterpreted string. -/
structure InstanceMetadata where
  certPem : CertParse
  intermediatePem : String
  keyPem : Option DERBytes
deriving DecidableEq

/-- The fields of `CachedCredentials` (auth.go 40-46) other than the lock.
The zero value has `nil` metadata and private key, empty key ID, and the
zero time. -/
structure CacheState where
  metadata : Option InstanceMetadata
  privateKey : Option RSAKey
  keyID : String
  expiresAt : Instant
deriving DecidableEq

/-- The cache as built by `New` (auth.go 55-62): all fields at their zero
values. -/
def emptyCache : CacheState := ⟨none, none, "", 0⟩

/-- The freshness test appearing at auth.go 86 and 99:
`a.cache.metadata != nil && time.Now().Before(a.cache.expiresAt)`. -/
def isFresh (st : CacheState) (now : Instant) : Bool :=
  st.metadata.isSome && decide (now < st.expiresAt)

/-- The wrapped errors `getCredentials` can surface (auth.go 104-119). -/
inductive CredError where
  | fetchFailed (e : FetchError)
  | keyParseFailed (e : KeyError)
  | certParseFailed (e : CertError)
deriving DecidableEq

/-- auth.go 121-126: `cacheExpiresAt := expiresAt.Add(-defaultCacheBuffer);
if cacheExpiresAt.Before(time.Now()) { cacheExpiresAt =
time.Now().Add(minCacheBuffer) }`. -/
def computeCacheExpiresAt (now notAfter : Instant) : Instant :=
  let cacheExpiresAt := notAfter - defaultCacheBuffer
  if cacheExpiresAt < now then now + minCacheBuffer else cacheExpiresAt

/-- auth.go 83-135 `getCredentials`, as the state transformer one call
performs.  `fetchResult` is the outcome `fetchInstanceMetadata` would produce
during this call (auth.go 104); `now` is the frozen clock.  Returns the new
cache state, whether a metadata fetch was performed (the step at auth.go 104
was reached), and the result: on success the `(privateKey, keyID)` pair as
returned to the caller, where the private key is a possibly-nil pointer in
Go, hence an `Option`.

Concurrency reduction: the write-locked region (auth.go 95-134) is atomic
under the mutex and the read-locked check (auth.go 85-92) only reads, so any
concurrent execution of N callers is equivalent to running N such calls in
some sequential order; the first `isFresh` test is the read-locked fast path
and the second the double-check under the write lock. -/
def getCredentials (fetchResult : Except FetchError InstanceMetadata)
    (now : Instant) (st : CacheState) :
    CacheState × Bool × Except CredError (Option RSAKey × String) :=
  if isFresh st now then (st, false, .ok (st.privateKey, st.keyID))
  else if isFresh st now then (st, false, .ok (st.privateKey, st.keyID))
  else
    match fetchResult with
    | .error e => (st, true, .error (.fetchFailed e))
    | .ok metadata =>
      match parsePrivateKey metadata.keyPem with
      | .error e => (st, true, .error (.keyParseFailed e))
      | .ok privateKey =>
        match extractFromCertPem metadata.certPem with
        | .error e => (st, true, .error (.certParseFailed e))
        | .ok keyAndExpiry =>
          let cacheExpiresAt := computeCacheExpiresAt now keyAndExpiry.2
          (⟨some metadata, some privateKey, keyAndExpiry.1, cacheExpiresAt⟩,
            true, .ok (some privateKey, keyAndExpiry.1))

/-- N sequentialised calls of `getCredentials` against a shared cache (the
order the lock imposes on N concurrent callers), with a fetch counter and
the list of per-caller results. -/
def runCalls (fetchResult : Except FetchError InstanceMetadata) (now : Instant) :
    Nat → CacheState → CacheState × Nat × List (Except CredError (Option RSAKey × String))
  | 0, st => (st, 0, [])
  | n + 1, st =>
    let call := getCredentials fetchResult now st
    let rest := runCalls fetchResult now n call.1
    (rest.1, (if call.2.1 then 1 else 0) + rest.2.1, call.2.2 :: rest.2.2)

/-! ## Request transformation (internal/transform/transform.go) -/

/-- The numeric fields of `config.Config` (internal/config/config.go) used by
the transformation, plus the compartment.  Go `float64` values are embedded
as rationals: the transformation only copies them and compares them with
zero, both of which are exact on floats. -/
structure Config where
  compartmentID : String
  maxTokens : Int
  temperature : Rat
  topP : Rat
  frequencyPenalty : Rat
  presencePenalty : Rat
  topK : Int
deriving DecidableEq

/-- `types.ChatCompletionMessage`. -/
structure ChatCompletionMessage where
  role : String
  content : String
deriving DecidableEq

/-- `types.ChatCompletionRequest`; the `float32` fields are embedded as
rationals (the widening `float64(x)` at transform.go 60-84 is exact). -/
structure ChatCompletionRequest where
  model : String
  messages : List ChatCompletionMessage
  maxTokens : Int
  temperature : Rat
  topP : Rat
  frequencyPenalty : Rat
  presencePenalty : Rat
deriving DecidableEq

/-- `types.StreamOptions`. -/
structure StreamOptions where
  isIncludeUsage : Bool
deriving DecidableEq

/-- `types.ChatRequest`. -/
structure ChatRequest where
  maxTokens : Int
  temperature : Rat
  frequencyPenalty : Rat
  presencePenalty : Rat
  topP : Rat
  topK : Int
  isStream : Bool
  streamOptions : StreamOptions
  chatHistory : List String
  message : String
  apiFormat : String
deriving DecidableEq

/-- `types.ServingMode`. -/
structure ServingMode where
  modelID : String
  servingType : String
deriving DecidableEq

/-- `types.OracleCloudRequest`. -/
structure OracleCloudRequest where
  compartmentID : String
  servingMode : ServingMode
  chatRequest : ChatRequest
deriving DecidableEq

/-- transform.go 33-119 `ToOracleCloudRequest` (logging elided): the last
message becomes the prompt, and each numeric parameter uses the request value
exactly when it is non-zero, the config default otherwise. -/
def toOracleCloudRequest (cfg : Config) (openAIReq : ChatCompletionRequest) :
    OracleCloudRequest :=
  let message :=
    match openAIReq.messages.getLast? with
    | some m => m.content
    | none => ""
  let maxTokens := if openAIReq.maxTokens ≠ 0 then openAIReq.maxTokens else cfg.maxTokens
  let temperature := if openAIReq.temperature ≠ 0 then openAIReq.temperature else cfg.temperature
  let topP := if openAIReq.topP ≠ 0 then openAIReq.topP else cfg.topP
  let frequencyPenalty :=
    if openAIReq.frequencyPenalty ≠ 0 then openAIReq.frequencyPenalty else cfg.frequencyPenalty
  let presencePenalty :=
    if openAIReq.presencePenalty ≠ 0 then openAIReq.presencePenalty else cfg.presencePenalty
  let topK := cfg.topK
  { compartmentID := cfg.compartmentID
    servingMode := { modelID := openAIReq.model, servingType := "ON_DEMAND" }
    chatRequest :=
      { maxTokens := maxTokens
        temperature := temperature
        frequencyPenalty := frequencyPenalty
        presencePenalty := presencePenalty
        topP := topP
        topK := topK
        isStream := false
        streamOptions := { isIncludeUsage := false }
        chatHistory := []
        message := message
        apiFormat := "COHERE" } }

/-! ## Shared concrete fixtures -/

/-- A concrete RSA key (toy numbers; the claims only compare values). -/
def key0 : RSAKey := ⟨3233, 413⟩

/-- DER bytes that parse as a PKCS#1 encoding of `key0`. -/
def derKey0 : DERBytes := ⟨some key0, none⟩

/-- A certificate with no subject attributes, serial 5, expiring at `t = 7200`
(two hours past the epoch). -/
def certLong : Certificate := ⟨[], 5, 7200⟩

/-- A certificate with no subject attributes, serial 5, expiring at `t = 300`
(five minutes past the epoch). -/
def certShort : Certificate := ⟨[], 5, 300⟩

/-- A certificate expiring at `t = 3600`, exactly one hour past the epoch. -/
def certEdge : Certificate := ⟨[], 5, 3600⟩

/-- Metadata whose certificate is `certLong` and whose key is `derKey0`. -/
def mdLong : InstanceMetadata := ⟨.parsed certLong, "", some derKey0⟩

/-- Metadata whose certificate is `certShort` and whose key is `derKey0`. -/
def mdShort : InstanceMetadata := ⟨.parsed certShort, "", some derKey0⟩

/-- Metadata whose certificate is `certEdge` and whose key is `derKey0`. -/
def mdEdge : InstanceMetadata := ⟨.parsed certEdge, "", some derKey0⟩

/-! ## Helper lemmas about `getCredentials` -/

/-- A fresh cache is served from the read path: no fetch, cached values. -/
theorem getCredentials_fresh (fetchResult : Except FetchError InstanceMetadata)
    (now : Instant) (st : CacheState) (h : isFresh st now = true) :
    getCredentials fetchResult now st = (st, false, .ok (st.privateKey, st.keyID)) := by
  simp [getCredentials, h]

/-- A stale cache with a fully successful refresh pipeline stores the new
entry wholesale and reports one fetch. -/
theorem getCredentials_refresh_ok (now : Instant) (st : CacheState)
    (md : InstanceMetadata) (pk : RSAKey) (kid : String) (notAfter : Instant)
    (hstale : isFresh st now = false)
    (hkey : parsePrivateKey md.keyPem = .ok pk)
    (hcert : extractFromCertPem md.certPem = .ok (kid, notAfter)) :
    getCredentials (.ok md) now st =
      (⟨some md, some pk, kid, computeCacheExpiresAt now notAfter⟩, true,
        .ok (some pk, kid)) := by
  simp [getCredentials, hstale, hkey, hcert]

/-- While the cache stays fresh, any number of calls fetch nothing and all
return the cached pair. -/
theorem runCalls_fresh (fetchResult : Except FetchError InstanceMetadata)
    (now : Instant) :
    ∀ (m : Nat) (st : CacheState), isFresh st now = true →
      runCalls fetchResult now m st =
        (st, 0, List.replicate m (.ok (st.privateKey, st.keyID)))
  | 0, st, _ => by simp [runCalls]
  | m + 1, st, h => by
    simp [runCalls, getCredentials_fresh fetchResult now st h,
      runCalls_fresh fetchResult now m st h, List.replicate_succ]

/-! ## C4 -/

/-- C4: for every successful refresh at fetch time `now` of a certificate
expiring at `notAfter`, the stored cache expiry equals `notAfter` minus one
hour when that instant is not before `now`, and `now` plus thirty minutes
otherwise. -/
theorem refresh_cache_expiry_rule (now : Instant) (st : CacheState)
    (md : InstanceMetadata) (pk : RSAKey) (kid : String) (notAfter : Instant)
    (hstale : isFresh st now = false)
    (hkey : parsePrivateKey md.keyPem = .ok pk)
    (hcert : extractFromCertPem md.certPem = .ok (kid, notAfter)) :
    (¬ notAfter - defaultCacheBuffer < now →
      (getCredentials (.ok md) now st).1.expiresAt = notAfter - defaultCacheBuffer) ∧
    (notAfter - defaultCacheBuffer < now →
      (getCredentials (.ok md) now st).1.expiresAt = now + minCacheBuffer) := by
  rw [getCredentials_refresh_ok now st md pk kid notAfter hstale hkey hcert]
  constructor
  · intro h
    simp [computeCacheExpiresAt, h]
  · intro h
    simp [computeCacheExpiresAt, h]

/-- C4 witness: `notAfter = now + 2h` stores expiry `now + 1h` (= 3600), and
`notAfter = now + 5m` stores expiry `now + 30m` (= 1800), with `now = 0`. -/
theorem refresh_cache_expiry_rule_witness :
    (getCredentials (.ok mdLong) 0 emptyCache).1.expiresAt = 3600 ∧
    (getCredentials (.ok mdShort) 0 emptyCache).1.expiresAt = 1800 :=
  ⟨((refresh_cache_expiry_rule 0 emptyCache mdLong key0 "5" 7200 rfl rfl rfl).1
      (by decide)).trans (by decide),
    ((refresh_cache_expiry_rule 0 emptyCache mdShort key0 "5" 300 rfl rfl rfl).2
      (by decide)).trans (by decide)⟩

/-! ## C1 -/

/-- C1 counterexample: a successful refresh at time 0 of a certificate with
`notAfter = 300` (five minutes out) stores `cacheExpiresAt = 1800`, which is
NOT at most `notAfter - minCacheBuffer = -1500` — the cache stays trusted
well past the certificate's expiration. -/
theorem cache_trusted_past_notAfter_counterexample :
    (getCredentials (.ok mdShort) 0 emptyCache).2.2 = .ok (some key0, "5") ∧
    ¬ (getCredentials (.ok mdShort) 0 emptyCache).1.expiresAt ≤ 300 - minCacheBuffer := by
  constructor
  · rfl
  · decide

/-- C1 (amended): after a successful refresh, `cacheExpiresAt` is at most
`notAfter - minCacheBuffer` whenever the default-buffer branch applies
(`notAfter - defaultCacheBuffer` not before fetch time); in the
minimum-buffer branch `cacheExpiresAt = fetchTime + minCacheBuffer`, which
can exceed that bound. -/
theorem cache_expiry_bound (now : Instant) (st : CacheState)
    (md : InstanceMetadata) (pk : RSAKey) (kid : String) (notAfter : Instant)
    (hstale : isFresh st now = false)
    (hkey : parsePrivateKey md.keyPem = .ok pk)
    (hcert : extractFromCertPem md.certPem = .ok (kid, notAfter)) :
    (now ≤ notAfter - defaultCacheBuffer →
      (getCredentials (.ok md) now st).1.expiresAt ≤ notAfter - minCacheBuffer) ∧
    (notAfter - defaultCacheBuffer < now →
      (getCredentials (.ok md) now st).1.expiresAt = now + minCacheBuffer) := by
  rw [getCredentials_refresh_ok now st md pk kid notAfter hstale hkey hcert]
  constructor
  · intro h
    show computeCacheExpiresAt now notAfter ≤ notAfter - minCacheBuffer
    simp only [computeCacheExpiresAt, defaultCacheBuffer, minCacheBuffer] at h ⊢
    rw [if_neg (by linarith : ¬ notAfter - 3600 < now)]
    linarith
  · intro h
    simp [computeCacheExpiresAt, h]

/-- C1 witness: with `now = 0` and `notAfter = 7200`, the stored expiry
(3600) is within `notAfter - minCacheBuffer = 5400`. -/
theorem cache_expiry_bound_witness :
    (getCredentials (.ok mdLong) 0 emptyCache).1.expiresAt ≤ 7200 - minCacheBuffer :=
  (cache_expiry_bound 0 emptyCache mdLong key0 "5" 7200 rfl rfl rfl).1 (by decide)

/-! ## C9 -/

/-- C9: failed refreshes are all-or-nothing.  If `getCredentials` returns an
error, the cache state (all four fields) is exactly what it was before the
call; and each failing step — metadata fetch, private-key parse, certificate
parse — yields the corresponding error. -/
theorem getCredentials_error_atomic (fetchResult : Except FetchError InstanceMetadata)
    (now : Instant) (st : CacheState) :
    (∀ e, (getCredentials fetchResult now st).2.2 = .error e →
      (getCredentials fetchResult now st).1 = st) ∧
    (∀ e, isFresh st now = false → fetchResult = .error e →
      (getCredentials fetchResult now st).2.2 = .error (.fetchFailed e)) ∧
    (∀ md e, isFresh st now = false → fetchResult = .ok md →
      parsePrivateKey md.keyPem = .error e →
      (getCredentials fetchResult now st).2.2 = .error (.keyParseFailed e)) ∧
    (∀ md pk e, isFresh st now = false → fetchResult = .ok md →
      parsePrivateKey md.keyPem = .ok pk →
      extractFromCertPem md.certPem = .error e →
      (getCredentials fetchResult now st).2.2 = .error (.certParseFailed e)) := by
  refine ⟨?_, ?_, ?_, ?_⟩
  · intro e herr
    by_cases h : isFresh st now
    · simp [getCredentials, h] at herr
    · simp only [getCredentials, h, Bool.false_eq_true, if_false] at herr ⊢
      cases fetchResult with
      | error e' => simp
      | ok md =>
        cases hkey : parsePrivateKey md.keyPem with
        | error e' => simp [hkey]
        | ok pk =>
          cases hcert : extractFromCertPem md.certPem with
          | error e' => simp [hkey, hcert]
          | ok keyAndExpiry => simp [hkey, hcert] at herr
  · intro e hst hfr
    subst hfr
    simp [getCredentials, hst]
  · intro md e hst hfr hkey
    subst hfr
    simp [getCredentials, hst, hkey]
  · intro md pk e hst hfr hkey hcert
    subst hfr
    simp [getCredentials, hst, hkey, hcert]

/-- C9 witness: a connection failure against the empty cache surfaces
`fetchFailed connFail` and leaves the cache exactly empty. -/
theorem getCredentials_error_atomic_witness :
    (getCredentials (.error .connFail) 0 emptyCache).2.2 =
      .error (.fetchFailed .connFail) ∧
    (getCredentials (.error .connFail) 0 emptyCache).1 = emptyCache := by
  have h := getCredentials_error_atomic (.error .connFail) 0 emptyCache
  exact ⟨h.2.1 .connFail rfl rfl, h.1 (.fetchFailed .connFail) (h.2.1 .connFail rfl rfl)⟩

/-! ## C3 -/

/-- C3 counterexample: two callers at time 0 against the empty cache, with a
certificate expiring exactly one hour out (`notAfter = 3600`), perform TWO
metadata fetches, not one: the refresh stores
`cacheExpiresAt = 3600 - 3600 = 0`, which is already not in the future, so
the second caller's double-check fails and it fetches again. -/
theorem concurrent_single_fetch_counterexample :
    (runCalls (.ok mdEdge) 0 2 emptyCache).2.1 = 2 ∧
    (runCalls (.ok mdEdge) 0 2 emptyCache).2.1 ≠ 1 := by
  constructor
  · rfl
  · decide

/-- C3 (amended): provided the entry stored by the refresh is fresh at the
shared call time (`now < computeCacheExpiresAt now notAfter`, which fails
only for `notAfter` exactly one hour after `now`), any number of
sequentialised callers (the order the cache lock imposes on concurrent
callers) starting from a non-fresh cache perform exactly one metadata fetch,
and every caller receives the same `(privateKey, keyID)` pair, the one stored
by the single refresh. -/
theorem concurrent_callers_single_fetch (n : Nat) (now : Instant)
    (st0 : CacheState) (md : InstanceMetadata) (pk : RSAKey) (kid : String)
    (notAfter : Instant)
    (hstale : isFresh st0 now = false)
    (hkey : parsePrivateKey md.keyPem = .ok pk)
    (hcert : extractFromCertPem md.certPem = .ok (kid, notAfter))
    (hfresh : now < computeCacheExpiresAt now notAfter) :
    (runCalls (.ok md) now (n + 1) st0).2.1 = 1 ∧
    ∀ res ∈ (runCalls (.ok md) now (n + 1) st0).2.2, res = .ok (some pk, kid) := by
  have hcall := getCredentials_refresh_ok now st0 md pk kid notAfter hstale hkey hcert
  have hfresh1 :
      isFresh ⟨some md, some pk, kid, computeCacheExpiresAt now notAfter⟩ now = true := by
    simp [isFresh, hfresh]
  have hrest := runCalls_fresh (.ok md) now n
    ⟨some md, some pk, kid, computeCacheExpiresAt now notAfter⟩ hfresh1
  constructor
  · simp [runCalls, hcall, hrest]
  · intro res hres
    simp only [runCalls, hcall, hrest] at hres
    simp only [List.mem_cons, List.mem_replicate] at hres
    rcases hres with h | ⟨-, h⟩ <;> exact h

/-- C3 witness: two callers at time 0 against the empty cache with a
certificate expiring in two hours perform exactly one fetch and both receive
`(key0, "5")`. -/
theorem concurrent_callers_single_fetch_witness :
    (runCalls (.ok mdLong) 0 2 emptyCache).2.1 = 1 ∧
    ∀ res ∈ (runCalls (.ok mdLong) 0 2 emptyCache).2.2, res = .ok (some key0, "5") :=
  concurrent_callers_single_fetch 1 0 emptyCache mdLong key0 "5" 7200 rfl rfl rfl
    (by decide)

/-! ## C5 -/

/-- The §8 example request: `POST /20240101/actions/generateText`, no query,
no explicit host (URL host `generativeai.example.com`), `Date` header
`Thu, 05 Jan 2014 21:31:40 GMT`. -/
def ex8Request : Request :=
  ⟨"POST", ⟨"/20240101/actions/generateText", "", "generativeai.example.com"⟩, "",
    ⟨"Thu, 05 Jan 2014 21:31:40 GMT", ""⟩⟩

/-- The signing string as the spec words it: exactly three newline-joined
lines with the literal labels. -/
def specSigningString (requestTarget host date : String) : String :=
  String.intercalate "\n"
    ["(request-target): " ++ requestTarget, "host: " ++ host, "date: " ++ date]

/-- `String.intercalate` on a three-element list unfolded. -/
theorem intercalate_three (sep a b c : String) :
    String.intercalate sep [a, b, c] = a ++ sep ++ b ++ sep ++ c := rfl

/-- Re-associate an append and merge the two left literals. -/
theorem append_merge (a b c ab : String) (h : a ++ b = ab) :
    a ++ (b ++ c) = ab ++ c :=
  (String.append_assoc a b c).symm.trans (congrArg (fun s => s ++ c) h)

/-- Merging the newline into the host label. -/
theorem merge_host (x : String) : "\n" ++ ("host: " ++ x) = "\nhost: " ++ x :=
  append_merge "\n" "host: " x "\nhost: " rfl

/-- Merging the newline into the date label. -/
theorem merge_date (x : String) : "\n" ++ ("date: " ++ x) = "\ndate: " ++ x :=
  append_merge "\n" "date: " x "\ndate: " rfl

/-- C5: for a request with a `Date` header present, the signing string is
exactly the three newline-joined lines — lower-cased method, path with
`?query` only when the query is non-empty, the host falling back to the URL
host when the request host is empty, and the date — and on the §8 example
inputs it is exactly the expected literal. -/
theorem buildSigningString_format (nowStr : String) (r : Request)
    (hd : r.headers.date ≠ "") :
    (buildSigningString nowStr r).1 =
      specSigningString
        (lowerString r.method ++ " " ++ r.url.path ++
          (if r.url.rawQuery = "" then "" else "?" ++ r.url.rawQuery))
        (if r.host = "" then r.url.host else r.host)
        r.headers.date ∧
    (buildSigningString nowStr ex8Request).1 =
      "(request-target): post /20240101/actions/generateText\nhost: generativeai.example.com\ndate: Thu, 05 Jan 2014 21:31:40 GMT" := by
  constructor
  · rw [specSigningString, intercalate_three]
    by_cases hq : r.url.rawQuery = "" <;>
      simp only [buildSigningString, requestTargetOf, hostOf, hd, hq, ne_eq,
        not_true_eq_false, not_false_eq_true, if_true, if_false, ite_not,
        String.append_empty, if_neg hd, String.append_assoc, merge_host, merge_date]
  · rfl

/-- C5 witness: the format theorem instantiated on the §8 example. -/
theorem buildSigningString_format_witness :
    (buildSigningString "X" ex8Request).1 =
      specSigningString
        (lowerString ex8Request.method ++ " " ++ ex8Request.url.path ++
          (if ex8Request.url.rawQuery = "" then "" else "?" ++ ex8Request.url.rawQuery))
        (if ex8Request.host = "" then ex8Request.url.host else ex8Request.host)
        ex8Request.headers.date ∧
    (buildSigningString "X" ex8Request).1 =
      "(request-target): post /20240101/actions/generateText\nhost: generativeai.example.com\ndate: Thu, 05 Jan 2014 21:31:40 GMT" :=
  buildSigningString_format "X" ex8Request (by decide)

/-! ## C2 -/

/-- C2: evaluation of the divergence.  On a request whose `Date` header is
already present (`Thu, 05 Jan 2014 21:31:40 GMT`), signed at a later instant:
the pre-existing date is the one covered by the signature (it appears in the
signing string), but `signRequest` then overwrites the `Date` header with the
current time (auth.go:275), so after signing the header does NOT equal the
date covered by the signature. -/
theorem signRequest_date_header_mismatch :
    dateCoveredBySignature "Sat, 11 Oct 2025 12:00:00 GMT" ex8Request =
      "Thu, 05 Jan 2014 21:31:40 GMT" ∧
    (buildSigningString "Sat, 11 Oct 2025 12:00:00 GMT" ex8Request).1 =
      "(request-target): post /20240101/actions/generateText\nhost: generativeai.example.com\ndate: Thu, 05 Jan 2014 21:31:40 GMT" ∧
    (signRequest (fun _ => "sig") "keyid" "Sat, 11 Oct 2025 12:00:00 GMT"
        ex8Request).headers.date = "Sat, 11 Oct 2025 12:00:00 GMT" ∧
    (signRequest (fun _ => "sig") "keyid" "Sat, 11 Oct 2025 12:00:00 GMT"
          ex8Request).headers.date ≠
      dateCoveredBySignature "Sat, 11 Oct 2025 12:00:00 GMT" ex8Request := by
  refine ⟨rfl, rfl, rfl, ?_⟩
  decide

/-! ## C6 -/

/-- C6: `parsePrivateKey` fails with the PEM-decode error exactly when no PEM
block is found; on a block it returns the PKCS#1 parse when that succeeds
(regardless of the PKCS#8 outcome), otherwise falls back to PKCS#8; it fails
when neither parser succeeds, fails with the not-RSA error when the PKCS#8
payload is a non-RSA key, and on every valid PKCS#1 or PKCS#8 encoding of an
RSA key it returns a key with the original modulus. -/
theorem parsePrivateKey_spec (b : DERBytes) (k : RSAKey) :
    parsePrivateKey none = .error .pemDecodeFailed ∧
    parsePrivateKey (some b) ≠ .error .pemDecodeFailed ∧
    (b.asPKCS1 = some k → parsePrivateKey (some b) = .ok k) ∧
    (b.asPKCS1 = none → b.asPKCS8 = none →
      parsePrivateKey (some b) = .error .parseFailed) ∧
    (b.asPKCS1 = none → b.asPKCS8 = some .otherKey →
      parsePrivateKey (some b) = .error .notRSA) ∧
    (b.asPKCS1 = none → b.asPKCS8 = some (.rsaKey k) →
      ∃ k2, parsePrivateKey (some b) = .ok k2 ∧ k2.modulus = k.modulus) := by
  obtain ⟨p1, p8⟩ := b
  refine ⟨rfl, ?_, ?_, ?_, ?_, ?_⟩
  · cases p1 with
    | some key => simp [parsePrivateKey]
    | none =>
      cases p8 with
      | none => simp [parsePrivateKey]
      | some parsed => cases parsed <;> simp [parsePrivateKey]
  · intro h
    simp only at h
    subst h
    simp [parsePrivateKey]
  · intro h1 h8
    simp only at h1 h8
    subst h1
    subst h8
    simp [parsePrivateKey]
  · intro h1 h8
    simp only at h1 h8
    subst h1
    subst h8
    simp [parsePrivateKey]
  · intro h1 h8
    simp only at h1 h8
    subst h1
    subst h8
    exact ⟨k, by simp [parsePrivateKey], rfl⟩

/-- C6 witness: a PKCS#1 block holding `key0` parses to `key0`. -/
theorem parsePrivateKey_spec_witness :
    parsePrivateKey (some derKey0) = .ok key0 :=
  (parsePrivateKey_spec derKey0 key0).2.2.1 rfl

/-! ## C7 -/

/-- A certificate whose subject carries a `2.5.4.45` attribute whose string
value is empty, with serial number 7. -/
def certEmptyUID : Certificate := ⟨[⟨uniqueIdentifierOID, .strVal ""⟩], 7, 100⟩

/-- Scanning a prefix with no matching OID passes through. -/
theorem findKeyID_no_match :
    ∀ (pre : List SubjectAttr), (∀ a ∈ pre, a.oid ≠ uniqueIdentifierOID) →
      ∀ rest, findKeyID (pre ++ rest) = findKeyID rest
  | [], _, _ => rfl
  | a :: pre, h, rest => by
    simp only [List.cons_append, findKeyID]
    rw [if_neg (h a (List.mem_cons_self a pre))]
    exact findKeyID_no_match pre (fun b hb => h b (List.mem_cons_of_mem a hb)) rest

/-- C7 counterexample: on `certEmptyUID` the subject DOES contain an
attribute with OID 2.5.4.45, whose string value is `""`, yet key-ID
extraction does not return that string value: it returns the serial number
`"7"` (the `keyID == ""` fallback at auth.go 243-245 cannot distinguish "no
attribute" from "attribute with empty value"). -/
theorem extractKeyID_present_attr_counterexample :
    (extractKeyIDAndExpiration certEmptyUID).1 = "7" ∧
    (extractKeyIDAndExpiration certEmptyUID).1 ≠ "" := by
  constructor
  · rfl
  · decide

/-- C7 (amended): key-ID extraction returns the string value of the first
subject attribute with OID 2.5.4.45 when one is present and that value is a
non-empty string; otherwise — no such attribute, or the first such
attribute's value is not a string, or it is the empty string — it returns
the serial number as a decimal string; the returned expiration is the
certificate's `notAfter`, unadjusted. -/
theorem extractKeyID_rule (pre post attrs : List SubjectAttr) (s : String)
    (serial : Int) (na : Instant)
    (hpre : ∀ a ∈ pre, a.oid ≠ uniqueIdentifierOID)
    (habs : ∀ a ∈ attrs, a.oid ≠ uniqueIdentifierOID) :
    (s ≠ "" →
      extractKeyIDAndExpiration
        ⟨pre ++ ⟨uniqueIdentifierOID, .strVal s⟩ :: post, serial, na⟩ = (s, na)) ∧
    extractKeyIDAndExpiration ⟨attrs, serial, na⟩ = (toString serial, na) ∧
    extractKeyIDAndExpiration
        ⟨pre ++ ⟨uniqueIdentifierOID, .nonStringVal⟩ :: post, serial, na⟩ =
      (toString serial, na) ∧
    extractKeyIDAndExpiration
        ⟨pre ++ ⟨uniqueIdentifierOID, .strVal ""⟩ :: post, serial, na⟩ =
      (toString serial, na) := by
  refine ⟨?_, ?_, ?_, ?_⟩
  · intro hs
    have h1 : findKeyID (pre ++ ⟨uniqueIdentifierOID, .strVal s⟩ :: post) = s := by
      rw [findKeyID_no_match pre hpre]
      simp [findKeyID]
    simp [extractKeyIDAndExpiration, h1, hs]
  · have h2 : findKeyID attrs = "" := by
      have h3 := findKeyID_no_match attrs habs []
      simpa using h3
    simp [extractKeyIDAndExpiration, h2]
  · have h4 : findKeyID (pre ++ ⟨uniqueIdentifierOID, .nonStringVal⟩ :: post) = "" := by
      rw [findKeyID_no_match pre hpre]
      simp [findKeyID]
    simp [extractKeyIDAndExpiration, h4]
  · have h5 : findKeyID (pre ++ ⟨uniqueIdentifierOID, .strVal ""⟩ :: post) = "" := by
      rw [findKeyID_no_match pre hpre]
      simp [findKeyID]
    simp [extractKeyIDAndExpiration, h5]

/-- C7 witness: a subject uniqueIdentifier `"test-key-id-12345"` yields that
key ID, and with no such attribute serial number 123456789 yields
`"123456789"`; both return `notAfter = 100` verbatim. -/
theorem extractKeyID_rule_witness :
    extractKeyIDAndExpiration
        ⟨[⟨uniqueIdentifierOID, .strVal "test-key-id-12345"⟩], 123456789, 100⟩ =
      ("test-key-id-12345", 100) ∧
    extractKeyIDAndExpiration ⟨[], 123456789, 100⟩ = ("123456789", 100) ∧
    extractKeyIDAndExpiration
        ⟨[⟨uniqueIdentifierOID, .nonStringVal⟩], 123456789, 100⟩ =
      ("123456789", 100) := by
  have h := extractKeyID_rule [] [] [] "test-key-id-12345" 123456789 100
    (by simp) (by simp)
  exact ⟨h.1 (by decide), h.2.1.trans (by decide), h.2.2.1.trans (by decide)⟩

/-! ## C8 -/

/-- C8: `fetchMetadataEndpoint` fails when the connection cannot be
established, fails with the status error when the response status is not
200, fails when the body cannot be read, and never returns success from a
non-200 response. -/
theorem fetchMetadataEndpoint_spec (status : Nat)
    (bodyRead : Except Unit (List Nat)) (body : List Nat) :
    fetchMetadataEndpoint .connError = .error .connFail ∧
    (status ≠ 200 → fetchMetadataEndpoint (.response status bodyRead) =
      .error (.badStatus status)) ∧
    fetchMetadataEndpoint (.response 200 (.error ())) = .error .readFail ∧
    (fetchMetadataEndpoint (.response status bodyRead) = .ok body →
      status = 200 ∧ bodyRead = .ok body) := by
  refine ⟨rfl, ?_, rfl, ?_⟩
  · intro h
    simp [fetchMetadataEndpoint, h]
  · intro h
    by_cases hs : status = 200
    · subst hs
      cases bodyRead with
      | error e => simp [fetchMetadataEndpoint] at h
      | ok bs =>
        simp only [fetchMetadataEndpoint, ne_eq, not_true_eq_false, if_false,
          reduceIte, Except.ok.injEq] at h
        exact ⟨rfl, by rw [h]⟩
    · simp [fetchMetadataEndpoint, hs] at h

/-- C8 witness: a 404 response with a readable body is rejected with the
status error. -/
theorem fetchMetadataEndpoint_spec_witness :
    fetchMetadataEndpoint (.response 404 (.ok [])) = .error (.badStatus 404) :=
  (fetchMetadataEndpoint_spec 404 (.ok []) []).2.1 (by decide)

/-! ## C10 -/

/-- C10: in `ToOracleCloudRequest` a numeric parameter equal to 0 is replaced
by the configuration default — an explicit zero is indistinguishable from an
absent parameter (absent OpenAI JSON fields decode to 0), so when the config
default for temperature is non-zero a caller cannot obtain temperature 0. -/
theorem toOracleCloudRequest_zero_means_default (cfg : Config)
    (req : ChatCompletionRequest) :
    (req.maxTokens = 0 →
      (toOracleCloudRequest cfg req).chatRequest.maxTokens = cfg.maxTokens) ∧
    (req.temperature = 0 →
      (toOracleCloudRequest cfg req).chatRequest.temperature = cfg.temperature) ∧
    (req.topP = 0 → (toOracleCloudRequest cfg req).chatRequest.topP = cfg.topP) ∧
    (req.frequencyPenalty = 0 →
      (toOracleCloudRequest cfg req).chatRequest.frequencyPenalty =
        cfg.frequencyPenalty) ∧
    (req.presencePenalty = 0 →
      (toOracleCloudRequest cfg req).chatRequest.presencePenalty =
        cfg.presencePenalty) ∧
    (req.temperature = 0 → cfg.temperature ≠ 0 →
      (toOracleCloudRequest cfg req).chatRequest.temperature ≠ 0) := by
  refine ⟨?_, ?_, ?_, ?_, ?_, ?_⟩
  · intro h
    simp [toOracleCloudRequest, h]
  · intro h
    simp [toOracleCloudRequest, h]
  · intro h
    simp [toOracleCloudRequest, h]
  · intro h
    simp [toOracleCloudRequest, h]
  · intro h
    simp [toOracleCloudRequest, h]
  · intro h hc
    simp [toOracleCloudRequest, h, hc]

/-- C10 witness: with the default config (temperature 1) and a request whose
numeric parameters are all zero, the produced temperature is 1, not 0. -/
theorem toOracleCloudRequest_zero_means_default_witness :
    (toOracleCloudRequest ⟨"c", 600, 1, 3/4, 0, 0, 0⟩
        ⟨"m", [], 0, 0, 0, 0, 0⟩).chatRequest.maxTokens = 600 ∧
    (toOracleCloudRequest ⟨"c", 600, 1, 3/4, 0, 0, 0⟩
        ⟨"m", [], 0, 0, 0, 0, 0⟩).chatRequest.temperature = 1 ∧
    (toOracleCloudRequest ⟨"c", 600, 1, 3/4, 0, 0, 0⟩
        ⟨"m", [], 0, 0, 0, 0, 0⟩).chatRequest.temperature ≠ 0 := by
  have h := toOracleCloudRequest_zero_means_default ⟨"c", 600, 1, 3/4, 0, 0, 0⟩
    ⟨"m", [], 0, 0, 0, 0, 0⟩
  exact ⟨h.1 rfl, h.2.1 rfl, h.2.2.2.2.2 rfl (by decide)⟩

end OCIGenAI
